import Mathlib

/-!
Shallow embedding of the events/centers index-and-cache layer of
`src/server/events.ts`, together with theorems settling the spec claims.

Modelling conventions (JavaScript to Lean):
* A possibly-absent object field (`undefined` in JS, or a key the JSON
  document omits) is an `Option`; JSON `null` is conflated with absence.
* JS string truthiness (`if (s)`) is `jsTruthy`: both `undefined` and `""`
  are falsy.
* JS loose equality between two possibly-absent string fields coincides
  with `Option` equality on these values, and is written with `==`/`!=`.
* JS string `<` (used on ISO dates) is modelled by Lean's lexicographic
  `String` order; the two agree on ASCII data such as dates.
* `String.length` counts code points where JS counts UTF-16 units; the two
  agree on the ASCII boundary cases the validators are about.
* Async functions that can reject (a missing file in the external store,
  a JS `TypeError`) return `Except String`.
-/

/-- JS truthiness of a possibly-absent string field: `undefined` (here
`none`) and the empty string are falsy, every other string is truthy. -/
def jsTruthy : Option String → Bool
  | none => false
  | some s => s ≠ ""

/-- The authoritative per-event document (interface `FullEvent`): index
fields plus address fields, time and description, plus the derived display
fields (`weekdayRange`, `dateRange`, `combinedRange`) and `fullcity`,
which live on the same JS object once `augmentEvent` has run.  `id` is
always present on a stored record. -/
structure FullEvent where
  id : Int
  center : Option String
  startDate : Option String
  endDate : Option String
  title : Option String
  description : Option String
  startTime : Option String
  name : Option String
  address : Option String
  fullcity : Option String
  weekdayRange : Option String
  dateRange : Option String
  combinedRange : Option String
  deriving Repr, DecidableEq

/-- A partial-update payload for an event (`req.body as FullEvent` in the
POST /api/events route): every field may be absent.  A field is `some v`
exactly when the JS object has the key (`hasOwnProperty`). -/
structure EventDelta where
  id : Option Int
  center : Option String
  startDate : Option String
  endDate : Option String
  title : Option String
  description : Option String
  startTime : Option String
  name : Option String
  address : Option String
  deriving Repr, DecidableEq

/-- A center record (interface `Center`).  Fields are plain strings with
`""` standing for an absent field: every use of these fields in the source
is either an assignment or a truthiness test, for which the two coincide. -/
structure Center where
  id : String
  name : String
  address : String
  country : String
  users : List String
  program : String
  about : String
  fullcity : String
  deriving Repr, DecidableEq

/-- A partial-update payload for a center (`req.body as Center` in the
POST /api/centers route): the four whitelisted fields may each be absent. -/
structure CenterDelta where
  id : String
  name : Option String
  address : Option String
  program : Option String
  about : Option String
  deriving Repr, DecidableEq

/-- The regular expression `^2\d\d\d-\d\d-\d\d$` of `validDate`: exactly
ten characters, the first being the digit 2. -/
def dateShape (s : String) : Bool :=
  match s.data with
  | [y0, y1, y2, y3, h1, m0, m1, h2, a0, a1] =>
    y0 == '2' && y1.isDigit && y2.isDigit && y3.isDigit && h1 == '-' &&
      m0.isDigit && m1.isDigit && h2 == '-' && a0.isDigit && a1.isDigit
  | _ => false

/-- `validDate(d)`: `d == null || d == "" || /^2\d\d\d-\d\d-\d\d$/.test(d)`. -/
def validDate : Option String → Bool
  | none => true
  | some d => d == "" || dateShape d

/-- The regular expression `^\d\d:\d\d$` of `validTime`. -/
def timeShape (s : String) : Bool :=
  match s.data with
  | [h0, h1, c, m0, m1] => h0.isDigit && h1.isDigit && c == ':' && m0.isDigit && m1.isDigit
  | _ => false

/-- `validTime(d)`: `d == null || d == "" || /^\d\d:\d\d$/.test(d)`. -/
def validTime : Option String → Bool
  | none => true
  | some d => d == "" || timeShape d

/-- The final copy loop of `applyChanges`: each whitelisted key present on
the delta overwrites the current record's field. -/
def copyEventFields (curr : FullEvent) (delta : EventDelta) : FullEvent :=
  { curr with
    center := delta.center.or curr.center,
    startDate := delta.startDate.or curr.startDate,
    endDate := delta.endDate.or curr.endDate,
    title := delta.title.or curr.title,
    description := delta.description.or curr.description,
    startTime := delta.startTime.or curr.startTime,
    name := delta.name.or curr.name,
    address := delta.address.or curr.address }

/-- `applyChanges(curr, delta)` of `src/server/events.ts`: validation checks
in source order, then the field-copy loop; returns the (possibly updated)
record and the error string (`""` on success). -/
def applyChanges (curr : FullEvent) (delta : EventDelta) : FullEvent × String :=
  if jsTruthy curr.center && delta.center != curr.center then
    (curr, "cannot change event center")
  else if !validDate delta.startDate then (curr, "invalid start date")
  else if !validDate delta.endDate then (curr, "invalid end date")
  else if !validTime delta.startTime then (curr, "invalid start time")
  else if (delta.title.getD "").length > 200 then (curr, "title too long")
  else if (delta.address.getD "").length > 200 then (curr, "address too long")
  else if (delta.name.getD "").length > 200 then (curr, "name too long")
  else if (delta.description.getD "").length > 4000 then (curr, "description too long")
  else (copyEventFields curr delta, "")

/-- `applyCenterChanges(curr, delta)`: walks the keys `*program`, `*about`,
`name`, `address` in order (a `*` prefix raises the length limit to 4000);
a key present on the delta is length-checked and then assigned at once, so
a later failing key returns with the earlier assignments already made. -/
def applyCenterChanges (curr : Center) (delta : CenterDelta) : Center × String :=
  let afterAddress := fun (c : Center) =>
    match delta.address with
    | some v => if v.length > 200 then (c, "address too long") else ({ c with address := v }, "")
    | none => (c, "")
  let afterName := fun (c : Center) =>
    match delta.name with
    | some v => if v.length > 200 then (c, "name too long") else afterAddress { c with name := v }
    | none => afterAddress c
  let afterAbout := fun (c : Center) =>
    match delta.about with
    | some v => if v.length > 4000 then (c, "about too long") else afterName { c with about := v }
    | none => afterName c
  match delta.program with
  | some v => if v.length > 4000 then (curr, "program too long") else afterAbout { curr with program := v }
  | none => afterAbout curr

/-- The minimal projection `forIndex(js)` stored in the index: id, dates,
title and center of a full event (no key for `fullcity` is written). -/
structure EventIndexEntry where
  id : Int
  startDate : Option String
  endDate : Option String
  title : Option String
  center : Option String
  fullcity : Option String
  deriving Repr, DecidableEq

/-- `forIndex(js)` of `src/server/events.ts`. -/
def forIndex (js : FullEvent) : EventIndexEntry :=
  { id := js.id, startDate := js.startDate, endDate := js.endDate,
    title := js.title, center := js.center, fullcity := none }

/-- The persisted index snapshot (interface `EventIndex`). -/
structure EventIndex where
  events : List EventIndexEntry
  nextId : Int
  deriving Repr, DecidableEq

/-- One pass of the rebuild loop of `loadOrCreateIndex`: raise `nextId` to
`Math.max(nextId, js.id || 0)` and push the summary (`js.id` is an `Int`
here; a document without an id is the record with `id = 0`, which is how
`js.id || 0` reads it). -/
def rebuildStep (ix : EventIndex) (js : FullEvent) : EventIndex :=
  { events := ix.events ++ [forIndex js], nextId := max ix.nextId js.id }

/-- The no-snapshot branch of `loadOrCreateIndex`: scan the stored event
documents (`docs`, in directory order, already restricted to the files
matching `^\d+\.json$`), fold `rebuildStep` from the empty index with
`nextId = 0`, then increment `nextId` once. -/
def rebuildIndex (docs : List FullEvent) : EventIndex :=
  let ix := docs.foldl rebuildStep { events := [], nextId := 0 }
  { events := ix.events, nextId := ix.nextId + 1 }

/-- `loadOrCreateIndex()`: deserialize the persisted snapshot when one
exists, otherwise rebuild from the stored documents. -/
def loadOrCreateIndex (snapshot : Option EventIndex) (docs : List FullEvent) : EventIndex :=
  match snapshot with
  | some ix => ix
  | none => rebuildIndex docs

/-- Replace the value of the first pair whose key matches, else append:
assignment `m[k] = v` on a JS object used as a map. -/
def updA {κ α : Type} [BEq κ] : List (κ × α) → κ → α → List (κ × α)
  | [], k, v => [(k, v)]
  | (k0, v0) :: rest, k, v =>
    if k0 == k then (k, v) :: rest else (k0, v0) :: updA rest k v

/-- `index.events.findIndex(x => x.id == e.id)` followed by
`splice(idx, 1, entry)` (append when absent): replace the first entry with
the same id, else push at the end. -/
def upsertEntry : List EventIndexEntry → EventIndexEntry → List EventIndexEntry
  | [], ent => [ent]
  | e :: rest, ent => if e.id == ent.id then ent :: rest else e :: upsertEntry rest ent

/-- The process-wide mutable state of the module: the in-memory index, the
per-id event cache (`eventsCache`, the serialized document conflated with
its parse, which the JSON round trip justifies on these records), the
center directory (`_centers`) with its `hasAllCenters` flag, and the
external store's current event and center documents. -/
structure SysState where
  index : EventIndex
  eventsCache : List (Int × FullEvent)
  centers : List (String × Center)
  hasAllCenters : Bool
  storeEvents : List (Int × FullEvent)
  storeCenters : List (String × Center)
  deriving Repr, DecidableEq

/-- The `onUpdate` handler registered by `cachedCenters()`: on a pull
notification (`isPull = true`) empty the center directory and reset
`hasAllCenters`; nothing else is touched. -/
def onPull (st : SysState) (isPull : Bool) : SysState :=
  if isPull then { st with centers := [], hasAllCenters := false } else st

/-- `parseCenterAsync(str)`: the parsed center, with `fullcity` derived by
the geocoding collaborator (`geo`, standing for
`gmaps.parseAddressAsync(c.address).fullcity`) when missing. -/
def parseCenterAsync (geo : String → String) (c : Center) : Center :=
  if c.fullcity ≠ "" then c else { c with fullcity := geo c.address }

/-- `getCenterAsync(id)`: return the cached record when present; when the
directory is fully populated a missing key is `null` without touching the
store; otherwise fetch `centers/<id>.json` (a missing file rejects), parse
and cache it.  The string-typed-id guard is handled at each call site. -/
def getCenterAsync (geo : String → String) (st : SysState) (id : String) :
    Except String (SysState × Option Center) :=
  match List.lookup id st.centers with
  | some r => .ok (st, some r)
  | none =>
    if st.hasAllCenters then .ok (st, none)
    else
      match List.lookup id st.storeCenters with
      | none => .error ("ENOENT: centers/" ++ id ++ ".json")
      | some raw =>
        let c := parseCenterAsync geo raw
        .ok ({ st with centers := updA st.centers id c }, some c)

/-- The date helpers of `tools.ts`, which is outside the given sources.
Modelled from the spec: pure display-string derivations (weekday label,
month-plus-day label, same-month day label, month name, full date); the
claims here do not depend on their output, so they are parameters.  Each
takes the possibly-absent date field it is given in the source. -/
structure Tools where
  weekDay : Option String → String
  monthPlusDay : Option String → String
  monthDay : Option String → String
  monthName : Option String → String
  fullDate : Option String → String

/-- The range computations of `augmentEvent`: weekday range, date range and
combined range from `startDate` and (when truthy) `endDate`. -/
def augmentRanges (t : Tools) (startDate endDate : Option String) : String × String × String :=
  let w0 := t.weekDay startDate
  let d0 := t.monthPlusDay startDate
  let c0 := t.fullDate startDate
  if jsTruthy endDate then
    (w0 ++ "-" ++ t.weekDay endDate,
     d0 ++ "-" ++ (if t.monthName startDate ≠ t.monthName endDate
                   then t.monthPlusDay endDate else t.monthDay endDate),
     c0 ++ t.fullDate endDate)
  else (w0, d0, c0)

/-- Result type of `augmentEvent` (interface `EventListEntry`): an index
entry plus the derived display fields. -/
structure EventListEntry where
  id : Int
  startDate : Option String
  endDate : Option String
  title : Option String
  center : Option String
  fullcity : Option String
  weekdayRange : Option String
  dateRange : Option String
  combinedRange : Option String
  deriving Repr, DecidableEq

/-- `augmentEvent(ev)` on an index entry: clone, attach the cached center's
`fullcity` when the center is in the directory, compute the three range
strings. -/
def augmentEvent (t : Tools) (centers : List (String × Center)) (ev : EventIndexEntry) :
    EventListEntry :=
  let fc := match ev.center with
    | some cid =>
      match List.lookup cid centers with
      | some c => some c.fullcity
      | none => ev.fullcity
    | none => ev.fullcity
  let r := augmentRanges t ev.startDate ev.endDate
  { id := ev.id, startDate := ev.startDate, endDate := ev.endDate, title := ev.title,
    center := ev.center, fullcity := fc,
    weekdayRange := some r.1, dateRange := some r.2.1, combinedRange := some r.2.2 }

/-- `augmentEvent(ev)` applied to a full event record (as `readEventAsync`
does, casting the result back to `FullEvent`). -/
def augmentFull (t : Tools) (centers : List (String × Center)) (ev : FullEvent) : FullEvent :=
  let fc := match ev.center with
    | some cid =>
      match List.lookup cid centers with
      | some c => some c.fullcity
      | none => ev.fullcity
    | none => ev.fullcity
  let r := augmentRanges t ev.startDate ev.endDate
  { ev with
    fullcity := fc,
    weekdayRange := some r.1, dateRange := some r.2.1, combinedRange := some r.2.2 }

/-- `saveEventAsync(e, user)`: cache the serialized record, upsert its
summary into the in-memory index (the snapshot write to `index.json` is a
plain file write with no further observable effect here), and commit the
document to the external store. -/
def saveEventAsync (st : SysState) (e : FullEvent) : SysState :=
  { st with
    eventsCache := updA st.eventsCache e.id e,
    index := { st.index with events := upsertEntry st.index.events (forIndex e) },
    storeEvents := updA st.storeEvents e.id e }

/-- The document fetch inside `readEventAsync`: the cached text when
present, otherwise `current/<id>.json` from the store (a missing file
rejects), which is then cached. -/
def fetchEventDoc (st : SysState) (id : Int) : Except String (SysState × FullEvent) :=
  match List.lookup id st.eventsCache with
  | some doc => .ok (st, doc)
  | none =>
    match List.lookup id st.storeEvents with
    | none => .error ("ENOENT: current/" ++ toString id ++ ".json")
    | some doc => .ok ({ st with eventsCache := updA st.eventsCache id doc }, doc)

/-- `getCenterAsync` as called on a possibly-absent center field: the
`typeof id != "string"` guard returns null for an absent field. -/
def getCenterOfField (geo : String → String) (st : SysState) (c : Option String) :
    Except String (SysState × Option Center) :=
  match c with
  | none => .ok (st, none)
  | some cid => getCenterAsync geo st cid

/-- `readEventAsync(id)`: `null` when the id is not in the index; otherwise
the cached document text, fetched from the store (and cached) on a miss; the
owning center is resolved, an absent `address` pulls both `address` and
`name` from it (crashing, as the JS does, if the center resolved to null),
and the record is augmented. -/
def readEventAsync (geo : String → String) (t : Tools) (st : SysState) (id : Int) :
    Except String (SysState × Option FullEvent) :=
  if !(st.index.events.any fun e => e.id == id) then .ok (st, none)
  else
    match fetchEventDoc st id with
    | .error e => .error e
    | .ok (st1, r) =>
      match getCenterOfField geo st1 r.center with
      | .error e => .error e
      | .ok (st2, copt) =>
        if !(jsTruthy r.address) then
          match copt with
          | none => .error "TypeError: cannot read property of null"
          | some c =>
            let r1 := { r with address := some c.address, name := some c.name }
            .ok (st2, some (augmentFull t st2.centers r1))
        else .ok (st2, some (augmentFull t st2.centers r))

/-- The fresh skeleton `{ id: index.nextId } as FullEvent` of the creation
path: only the id is set. -/
def freshEvent (fid : Int) : FullEvent :=
  { id := fid, center := none, startDate := none, endDate := none, title := none,
    description := none, startTime := none, name := none, address := none,
    fullcity := none, weekdayRange := none, dateRange := none, combinedRange := none }

/-- The target-record dispatch of POST /api/events: a positive `delta.id`
reads the existing event (`none` standing for the 444 of an unknown id), a
non-positive or absent one yields the fresh skeleton at `fid` (the current
`nextId`), flagged `true` for a creation. -/
def resolveCurr (geo : String → String) (t : Tools) (st1 : SysState) (fid : Int)
    (delta : EventDelta) : Except String (SysState × Option (FullEvent × Bool)) :=
  match delta.id with
  | some i =>
    if i ≤ 0 then .ok (st1, some (freshEvent fid, true))
    else
      match readEventAsync geo t st1 i with
      | .error e => .error e
      | .ok (st2, none) => .ok (st2, none)
      | .ok (st2, some curr) => .ok (st2, some (curr, false))
  | none => .ok (st1, some (freshEvent fid, true))

/-- `if (currElt.address == center.address) delete currElt.address`. -/
def collapseAddress (e : FullEvent) (center : Center) : FullEvent :=
  if e.address == some center.address then { e with address := none } else e

/-- `if (currElt.name == center.name) delete currElt.name`. -/
def collapseName (e : FullEvent) (center : Center) : FullEvent :=
  if e.name == some center.name then { e with name := none } else e

/-- `if (currElt.endDate == currElt.startDate) delete currElt.endDate`. -/
def collapseEndDate (e : FullEvent) : FullEvent :=
  if e.endDate == e.startDate then { e with endDate := none } else e

/-- The three deletions the POST handler performs before saving. -/
def collapseEvent (e : FullEvent) (center : Center) : FullEvent :=
  collapseEndDate (collapseName (collapseAddress e center) center)

/-- The tail of POST /api/events once the target record is resolved. -/
def finishPost (st2 : SysState) (center : Center) (currElt : FullEvent) (isFresh : Bool)
    (delta : EventDelta) : SysState × Option Int × String :=
  let applied := applyChanges currElt delta
  if applied.2 ≠ "" then (st2, none, applied.2)
  else
    let st3 := if isFresh
      then { st2 with index := { st2.index with nextId := st2.index.nextId + 1 } }
      else st2
    (saveEventAsync st3 (collapseEvent applied.1 center),
     if isFresh then some applied.1.id else none, "")

/-- The POST /api/events handler after transport: resolve the delta's
center (a non-string or unknown center is a 404; `authOk` stands for
`auth.hasWritePermAsync` on its users, false being a 402), pick the target
record (a positive `delta.id` reads the existing event, 444 when unknown;
otherwise a fresh skeleton at the current `nextId` — `delete delta.id` has
no further observable effect since `id` is not a whitelisted field), apply
the validated changes (a failure is the 412 payload), and on success
consume `nextId` for a creation, drop `address`/`name` equal to the
center's and `endDate` equal to `startDate`, and save.  Returns the new
state, the id assigned by a creation, and the error string (`""` = saved,
otherwise the HTTP failure or the validation message). -/
def postEvent (geo : String → String) (t : Tools) (authOk : Bool) (st : SysState)
    (delta : EventDelta) : Except String (SysState × Option Int × String) :=
  match delta.center with
  | none => .ok (st, none, "404")
  | some cid =>
    match getCenterAsync geo st cid with
    | .error e => .error e
    | .ok (st1, none) => .ok (st1, none, "404")
    | .ok (st1, some center) =>
      if !authOk then .ok (st1, none, "402")
      else
        match resolveCurr geo t st1 st1.index.nextId delta with
        | .error e => .error e
        | .ok (st2, none) => .ok (st2, none, "444")
        | .ok (st2, some (currElt, isFresh)) =>
          .ok (finishPost st2 center currElt isFresh delta)

/-- A sequence of POST /api/events requests (each with its authorization
outcome), returning the final state and the ids assigned to the creations
in order; a rejected request (a store failure, HTTP 500) leaves the state
as it was. -/
def runEvents (geo : String → String) (t : Tools) : SysState → List (Bool × EventDelta) →
    SysState × List Int
  | st, [] => (st, [])
  | st, (auth, d) :: rest =>
    match postEvent geo t auth st d with
    | .error _ => runEvents geo t st rest
    | .ok (st1, a, _) =>
      let r := runEvents geo t st1 rest
      (r.1, a.toList ++ r.2)

/-- A parsed query string for GET /api/events: each parameter is absent or
its raw string value; `skip`/`count` are given as what `parseInt` made of
them (`none` for a missing or unparsable parameter). -/
structure Query where
  start : Option String
  stop : Option String
  center : Option String
  country : Option String
  skip : Option Int
  count : Option Int
  deriving Repr, DecidableEq

/-- JS `s || d` on a string parameter: the parameter unless it is absent or
empty. -/
def jsOrD (o : Option String) (d : String) : String :=
  match o with
  | some s => if s = "" then d else s
  | none => d

/-- JS `a || b` on two possibly-absent string fields. -/
def jsOrOpt (a b : Option String) : Option String :=
  if jsTruthy a then a else b

/-- Lexicographic (code-unit) comparison of two character lists: the JS
`<` on strings. -/
def charListLt : List Char → List Char → Bool
  | _, [] => false
  | [], _ :: _ => true
  | a :: as, b :: bs =>
    if a < b then true else if b < a then false else charListLt as bs

/-- JS `<` between possibly-absent strings: a comparison with `undefined`
is false, two strings compare lexicographically. -/
def jsLt (a b : Option String) : Bool :=
  match a, b with
  | some x, some y => charListLt x.data y.data
  | _, _ => false

/-- The date/center filter of `queryEventsAsync` (the first `filter`):
`(endDate || startDate) < start` drops, `startDate > stop` drops, a
non-wildcard `center` parameter must equal the entry's center. -/
def survivesFilter (startD stopD centerQ : String) (e : EventIndexEntry) : Bool :=
  let endD := jsOrOpt e.endDate e.startDate
  if jsLt endD (some startD) then false
  else if jsLt (some stopD) e.startDate then false
  else if centerQ ≠ "*" && e.center != some centerQ then false
  else true

/-- The `for (let e of events) await getCenterAsync(e.center)` pass that
populates the directory for every filtered entry (a non-string center is
returned as null by the guard in `getCenterAsync`). -/
def fetchCenters (geo : String → String) : SysState → List EventIndexEntry →
    Except String SysState
  | st, [] => .ok st
  | st, e :: rest =>
    match getCenterOfField geo st e.center with
    | .error msg => .error msg
    | .ok (st1, _) => fetchCenters geo st1 rest

/-- The country filter body: `let c = centers[e.center]; !c || c.country !=
country` drops the entry — an entry whose center is not in the directory is
dropped along with the genuinely differing ones. -/
def countryPass (centers : List (String × Center)) (country : String)
    (e : EventIndexEntry) : Bool :=
  match e.center with
  | none => false
  | some cid =>
    match List.lookup cid centers with
    | none => false
    | some c => c.country == country

/-- Modelled from the spec: `tools.strcmp`, three-way lexicographic string
comparison, `a < b ? lt : a > b ? gt : eq` (`tools.ts` is outside the
given sources); on an absent operand both JS orderings are false, so the
comparison reports equality. -/
def jsStrcmp (a b : Option String) : Ordering :=
  match a, b with
  | some x, some y =>
    if charListLt x.data y.data then .lt
    else if charListLt y.data x.data then .gt
    else .eq
  | _, _ => .eq

/-- The sort comparator `tools.strcmp(a.startDate, b.startDate) || (a.id -
b.id)` as a signed number. -/
def eventCmp (a b : EventIndexEntry) : Int :=
  match jsStrcmp a.startDate b.startDate with
  | .lt => -1
  | .gt => 1
  | .eq => a.id - b.id

/-- Non-positive comparator value: `a` sorts no later than `b`. -/
def eventLe (a b : EventIndexEntry) : Bool := eventCmp a b ≤ 0

/-- Stable insertion into a sorted list, implementing `events.sort` with
`eventCmp` (the claims touched by sorting depend only on the output being
the comparator-ordered rearrangement, not on the algorithm). -/
def insertSorted (e : EventIndexEntry) : List EventIndexEntry → List EventIndexEntry
  | [] => [e]
  | x :: rest => if eventLe e x then e :: x :: rest else x :: insertSorted e rest

/-- `events.sort((a, b) => tools.strcmp(...) || (a.id - b.id))`. -/
def sortEvents (l : List EventIndexEntry) : List EventIndexEntry :=
  l.foldr insertSorted []

/-- JS `arr.slice(s)` with a possibly negative start index. -/
def jsSliceFrom (l : List EventIndexEntry) (s : Int) : List EventIndexEntry :=
  if s < 0 then l.drop (l.length - min l.length s.natAbs) else l.drop s.toNat

/-- `Math.abs(parseInt(query["count"]) || 100)`: 100 for an absent,
unparsable or zero count, else the absolute value. -/
def effCount (q : Query) : Nat :=
  match q.count with
  | none => 100
  | some v => if v = 0 then 100 else v.natAbs

/-- The `{totalCount, events}` payload of `queryEventsAsync`. -/
structure QueryResult where
  totalCount : Nat
  events : List EventListEntry
  deriving Repr, DecidableEq

/-- `queryEventsAsync` with its two intermediate lists exposed: the state
after the center-population pass, the entries surviving the date/center
filter, those also surviving the country filter, and the response. -/
structure QueryMid where
  st : SysState
  surviving : List EventIndexEntry
  filtered : List EventIndexEntry
  result : QueryResult
  deriving Repr, DecidableEq

/-- `if (count > 100) count = 100`. -/
def clampCount (cnt : Nat) : Nat := if cnt > 100 then 100 else cnt

/-- `let skip = parseInt(query["skip"]) || 0; if (skip) events =
events.slice(skip)`. -/
def applySkip (q : Query) (sorted : List EventIndexEntry) : List EventIndexEntry :=
  if q.skip.getD 0 ≠ 0 then jsSliceFrom sorted (q.skip.getD 0) else sorted

/-- `if (events.length > count) events = events.slice(0, count)` with the
clamped count. -/
def truncateCount (q : Query) (l : List EventIndexEntry) : List EventIndexEntry :=
  if l.length > clampCount (effCount q) then l.take (clampCount (effCount q)) else l

/-- The tail of `queryEventsAsync` after the country filter: sort, record
`totalCount`, skip, truncate, augment. -/
def paginate (q : Query) (t : Tools) (st1 : SysState)
    (surviving filtered : List EventIndexEntry) : QueryMid :=
  { st := st1, surviving := surviving, filtered := filtered,
    result := { totalCount := (sortEvents filtered).length,
                events := (truncateCount q (applySkip q (sortEvents filtered))).map
                  (augmentEvent t st1.centers) } }

/-- `queryEventsAsync(query)` of `src/server/events.ts`, with its
intermediate lists exposed.  `today` is the computed default start date
`formatDate(Date.now() - 3 days)`.  Filter the index by date window and
center; resolve every surviving entry's center; when `country` is not the
wildcard keep only entries whose cached center's country equals it; then
paginate. -/
def queryEventsCore (geo : String → String) (t : Tools) (st : SysState) (q : Query)
    (today : String) : Except String QueryMid :=
  match fetchCenters geo st
      (st.index.events.filter
        (survivesFilter (jsOrD q.start today) (jsOrD q.stop "9999-99-99")
          (jsOrD q.center "*"))) with
  | .error e => .error e
  | .ok st1 =>
    .ok (paginate q t st1
      (st.index.events.filter
        (survivesFilter (jsOrD q.start today) (jsOrD q.stop "9999-99-99")
          (jsOrD q.center "*")))
      (if jsOrD q.country "*" = "*" then
        st.index.events.filter
          (survivesFilter (jsOrD q.start today) (jsOrD q.stop "9999-99-99")
            (jsOrD q.center "*"))
      else
        (st.index.events.filter
          (survivesFilter (jsOrD q.start today) (jsOrD q.stop "9999-99-99")
            (jsOrD q.center "*"))).filter
          (countryPass st1.centers (jsOrD q.country "*"))))

/-- The response of `queryEventsAsync` together with the state it leaves. -/
def queryEventsAsync (geo : String → String) (t : Tools) (st : SysState) (q : Query)
    (today : String) : Except String (SysState × QueryResult) :=
  (queryEventsCore geo t st q today).map fun mid => (mid.st, mid.result)

/-- A trivial geocoding collaborator for the concrete instances. -/
def g0 : String → String := fun _ => ""

/-- Trivial date-display helpers for the concrete instances. -/
def t0 : Tools :=
  { weekDay := fun _ => "", monthPlusDay := fun _ => "", monthDay := fun _ => "",
    monthName := fun _ => "", fullDate := fun _ => "", }

/-- A center with a program and an about text, for exercising
`applyCenterChanges`. -/
def centerC1 : Center :=
  { id := "c1", name := "Name", address := "Addr", country := "US", users := [],
    program := "", about := "", fullcity := "" }

/-- A center delta whose `program` is valid and whose `name` is 201
characters long. -/
def deltaC1 : CenterDelta :=
  { id := "c1", name := some (String.mk (List.replicate 201 'a')), address := none,
    program := some "p", about := none }

/-- The center `x` of the round-trip scenario: name `N`, address `A`. -/
def center0 : Center :=
  { id := "x", name := "N", address := "A", country := "US", users := [],
    program := "", about := "", fullcity := "" }

/-- A state whose directory holds `center0` (fully populated), with an
empty index at `nextId = 1`. -/
def st2c : SysState :=
  { index := { events := [], nextId := 1 }, eventsCache := [],
    centers := [("x", center0)], hasAllCenters := true,
    storeEvents := [], storeCenters := [] }

/-- A creation payload for center `x` whose `name` equals the center's
but whose `address` differs. -/
def delta2 : EventDelta :=
  { id := none, center := some "x", startDate := some "2024-05-01", endDate := none,
    title := some "T", description := none, startTime := none,
    name := some "N", address := some "B" }

/-- A creation payload for center `x` whose `name` and `address` both
equal the center's. -/
def deltaW2 : EventDelta :=
  { id := none, center := some "x", startDate := some "2024-05-01", endDate := none,
    title := some "T", description := none, startTime := none,
    name := some "N", address := some "A" }

/-- Two back-to-back creation requests for center `x`. -/
def opsC3 : List (Bool × EventDelta) := [(true, delta2), (true, deltaW2)]

/-- The US center of the query scenarios. -/
def centerUS : Center :=
  { id := "us1", name := "U", address := "UA", country := "US", users := [],
    program := "", about := "", fullcity := "" }

/-- The DE center of the query scenarios. -/
def centerDE : Center :=
  { id := "de1", name := "D", address := "DA", country := "DE", users := [],
    program := "", about := "", fullcity := "" }

/-- An index entry of May 1 owned by the US center. -/
def entryUS : EventIndexEntry :=
  { id := 1, startDate := some "2024-05-01", endDate := none, title := some "T1",
    center := some "us1", fullcity := none }

/-- An index entry of May 2 owned by the DE center. -/
def entryDE : EventIndexEntry :=
  { id := 2, startDate := some "2024-05-02", endDate := none, title := some "T2",
    center := some "de1", fullcity := none }

/-- A state indexing `entryUS` and `entryDE` with both centers cached. -/
def st6 : SysState :=
  { index := { events := [entryUS, entryDE], nextId := 3 }, eventsCache := [],
    centers := [("us1", centerUS), ("de1", centerDE)], hasAllCenters := true,
    storeEvents := [], storeCenters := [] }

/-- A query for May 2024 events of country DE, one result per page. -/
def q6de : Query :=
  { start := some "2024-01-01", stop := some "2024-12-31", center := none,
    country := some "DE", skip := none, count := some 1 }

/-- The query `q6de` without the country filter. -/
def q6star : Query :=
  { start := some "2024-01-01", stop := some "2024-12-31", center := none,
    country := none, skip := none, count := some 1 }

/-- A state indexing one event whose center is unknown to the (fully
populated) directory. -/
def st5 : SysState :=
  { index := { events := [entryUS], nextId := 2 }, eventsCache := [],
    centers := [], hasAllCenters := true,
    storeEvents := [], storeCenters := [] }

/-- A query whose `count` parameter parses to 0. -/
def q5 : Query :=
  { start := some "2024-01-01", stop := some "2024-12-31", center := none,
    country := none, skip := none, count := some 0 }

/-- The state with an empty index and empty caches. -/
def stE : SysState :=
  { index := { events := [], nextId := 0 }, eventsCache := [],
    centers := [], hasAllCenters := false,
    storeEvents := [], storeCenters := [] }

/-- A stored document with id 7, for instantiating the rebuild theorem. -/
def docA : FullEvent :=
  { freshEvent 7 with center := some "x", startDate := some "2024-05-01",
                      title := some "T" }

/-- C4: delivering a pull notification with `isPull = true` empties the
center directory and resets the fully-populated flag, while the event
cache, the index and the external-store views are left untouched. -/
theorem pull_invalidation_frame (st : SysState) :
    (onPull st true).centers = [] ∧ (onPull st true).hasAllCenters = false ∧
    (onPull st true).eventsCache = st.eventsCache ∧
    (onPull st true).index = st.index ∧
    (onPull st true).storeEvents = st.storeEvents ∧
    (onPull st true).storeCenters = st.storeCenters := by
  simp [onPull]

set_option maxRecDepth 8000 in
/-- C1 (counterexample): a center delta with a valid `program` and a
201-character `name` makes `applyCenterChanges` return a non-empty error
while having already overwritten the record's `program`. -/
theorem applyCenterChanges_partial_apply_cex :
    (applyCenterChanges centerC1 deltaC1).2 ≠ "" ∧
    (applyCenterChanges centerC1 deltaC1).1 ≠ centerC1 := by
  decide

/-- C1 (amended): when `applyChanges` returns a non-empty error the event
record is completely unchanged; `applyCenterChanges`, by contrast, applies
the whitelisted fields in order (`program`, `about`, `name`, `address`)
and stops at the first failure, so fields before the failing one may
already be overwritten — on failure only the fields at or after the
failing one, always including `address` and every non-whitelisted field,
still hold their old values. -/
theorem validation_atomicity_amended (curr : FullEvent) (delta : EventDelta)
    (c : Center) (dc : CenterDelta) :
    ((applyChanges curr delta).2 ≠ "" → (applyChanges curr delta).1 = curr) ∧
    ((applyCenterChanges c dc).2 ≠ "" →
      (applyCenterChanges c dc).1.id = c.id ∧
      (applyCenterChanges c dc).1.country = c.country ∧
      (applyCenterChanges c dc).1.users = c.users ∧
      (applyCenterChanges c dc).1.fullcity = c.fullcity ∧
      (applyCenterChanges c dc).1.address = c.address) := by
  constructor
  · intro h
    unfold applyChanges at h ⊢
    split_ifs at h ⊢ <;> simp_all
  · intro h
    unfold applyCenterChanges at h ⊢
    cases hp : dc.program <;> cases ha : dc.about <;> cases hn : dc.name <;>
      cases hd : dc.address <;> simp only [hp, ha, hn, hd] at h ⊢ <;>
      (try split_ifs at h ⊢) <;> simp_all

/-- C1 (witness): at a concrete record and failing delta, `applyChanges`
leaves the record unchanged. -/
theorem validation_atomicity_amended_witness :
    (applyChanges (freshEvent 1) { delta2 with startDate := some "bad" }).1 =
      freshEvent 1 :=
  (validation_atomicity_amended (freshEvent 1) { delta2 with startDate := some "bad" }
    centerC1 deltaC1).1 (by decide)

/-- The first check of `applyChanges`: a truthy current center and a
loosely unequal delta center short-circuit to the rejection. -/
theorem applyChanges_center_reject (curr : FullEvent) (delta : EventDelta)
    (h : jsTruthy curr.center = true) (hne : delta.center ≠ curr.center) :
    applyChanges curr delta = (curr, "cannot change event center") := by
  have hb : (jsTruthy curr.center && delta.center != curr.center) = true := by
    simpa [h, bne_iff_ne] using hne
  unfold applyChanges
  rw [hb]
  simp

/-- C7: for a record whose `center` is already set (truthy), a delta whose
`center` value differs is rejected with "cannot change event center", and
whatever the delta, `applyChanges` never changes the record's center. -/
theorem event_center_immutable (curr : FullEvent) (delta : EventDelta)
    (h : jsTruthy curr.center = true) :
    (delta.center ≠ curr.center →
      applyChanges curr delta = (curr, "cannot change event center")) ∧
    (applyChanges curr delta).1.center = curr.center := by
  have hrej := applyChanges_center_reject curr delta h
  refine ⟨hrej, ?_⟩
  by_cases hne : delta.center = curr.center
  · obtain ⟨s, hs⟩ : ∃ s, curr.center = some s := by
      cases hc : curr.center with
      | none => rw [hc] at h; simp [jsTruthy] at h
      | some s => exact ⟨s, rfl⟩
    unfold applyChanges
    split_ifs <;> simp [copyEventFields, hne, hs, Option.or]
  · rw [hrej hne]

/-- C7 (witness): a concrete event with center `x` rejects a delta moving
it to center `y`, and its center is unchanged. -/
theorem event_center_immutable_witness :
    (applyChanges { freshEvent 1 with center := some "x" }
        { delta2 with center := some "y" } =
      ({ freshEvent 1 with center := some "x" }, "cannot change event center")) ∧
    (applyChanges { freshEvent 1 with center := some "x" }
        { delta2 with center := some "y" }).1.center =
      ({ freshEvent 1 with center := some "x" } : FullEvent).center := by
  have h := event_center_immutable { freshEvent 1 with center := some "x" }
    { delta2 with center := some "y" } (by decide)
  exact ⟨h.1 (by decide), h.2⟩

/-- C10: when the existing record's `center` is set (truthy), a delta that
carries no `center` key at all is rejected with "cannot change event
center", because the absent field compares unequal to the current value. -/
theorem missing_center_key_rejected (curr : FullEvent) (delta : EventDelta)
    (h : jsTruthy curr.center = true) (hd : delta.center = none) :
    applyChanges curr delta = (curr, "cannot change event center") := by
  have : delta.center ≠ curr.center := by
    rw [hd]
    cases hc : curr.center with
    | none => rw [hc] at h; simp [jsTruthy] at h
    | some s => simp
  exact applyChanges_center_reject curr delta h this

/-- C10 (witness): a concrete delta without a `center` key is rejected by a
record whose center is `x`. -/
theorem missing_center_key_rejected_witness :
    applyChanges { freshEvent 1 with center := some "x" }
        { delta2 with center := none } =
      ({ freshEvent 1 with center := some "x" }, "cannot change event center") :=
  missing_center_key_rejected { freshEvent 1 with center := some "x" }
    { delta2 with center := none } (by decide) rfl

/-- The strings `dateShape` accepts are exactly the ten-character
`2xxx-xx-xx` forms. -/
theorem dateShape_characterization (s : String) :
    dateShape s = true ↔ ∃ y1 y2 y3 m0 m1 a0 a1 : Char,
      s = String.mk ['2', y1, y2, y3, '-', m0, m1, '-', a0, a1] ∧
      (y1.isDigit ∧ y2.isDigit ∧ y3.isDigit ∧ m0.isDigit ∧ m1.isDigit ∧
        a0.isDigit ∧ a1.isDigit) := by
  constructor
  · intro h
    unfold dateShape at h
    split at h
    next y0 y1 y2 y3 h1 m0 m1 h2 a0 a1 heq =>
      simp only [Bool.and_eq_true, beq_iff_eq] at h
      obtain ⟨⟨⟨⟨⟨⟨⟨⟨⟨hy0, hy1⟩, hy2⟩, hy3⟩, hh1⟩, hm0⟩, hm1⟩, hh2⟩, ha0⟩, ha1⟩ := h
      refine ⟨y1, y2, y3, m0, m1, a0, a1, ?_, hy1, hy2, hy3, hm0, hm1, ha0, ha1⟩
      subst hy0 hh1 hh2
      rw [← heq]
    next => simp at h
  · rintro ⟨y1, y2, y3, m0, m1, a0, a1, rfl, hy1, hy2, hy3, hm0, hm1, ha0, ha1⟩
    simp [dateShape, hy1, hy2, hy3, hm0, hm1, ha0, ha1]

/-- The strings `timeShape` accepts are exactly the five-character
`xx:xx` digit forms. -/
theorem timeShape_characterization (s : String) :
    timeShape s = true ↔ ∃ h0 h1 n0 n1 : Char,
      s = String.mk [h0, h1, ':', n0, n1] ∧
      (h0.isDigit ∧ h1.isDigit ∧ n0.isDigit ∧ n1.isDigit) := by
  constructor
  · intro h
    unfold timeShape at h
    split at h
    next h0 h1 c n0 n1 heq =>
      simp only [Bool.and_eq_true, beq_iff_eq] at h
      obtain ⟨⟨⟨⟨hh0, hh1⟩, hc⟩, hn0⟩, hn1⟩ := h
      refine ⟨h0, h1, n0, n1, ?_, hh0, hh1, hn0, hn1⟩
      subst hc
      rw [← heq]
    next => simp at h
  · rintro ⟨h0, h1, n0, n1, rfl, hh0, hh1, hn0, hn1⟩
    simp [timeShape, hh0, hh1, hn0, hn1]

/-- C8 (counterexample): `1999-01-01` is a YYYY-MM-DD date with a four-digit
year, yet `validDate` rejects it — the pattern demands a year beginning
with the digit 2 — so validation does not accept every four-digit-year
date. -/
theorem validDate_year_1999_cex :
    ((("1999-01-01" : String).data.all Char.isDigit = false ∧
      ("1999-01-01" : String).length = 10) ∧
      (∀ i ∈ [0, 1, 2, 3, 5, 6, 8, 9], (("1999-01-01" : String).data.getD i ' ').isDigit) ∧
      ("1999-01-01" : String).data.getD 4 ' ' = '-' ∧
      ("1999-01-01" : String).data.getD 7 ' ' = '-') ∧
    validDate (some "1999-01-01") = false := by
  decide

/-- C8 (amended): `validDate` accepts exactly the absent value, the empty
string, and ten-character `YYYY-MM-DD` strings whose four-digit year begins
with the digit 2 (years 2000-2999); `validTime` accepts exactly the absent
value, the empty string, and five-character `HH:MM` digit patterns. -/
theorem date_time_validation_amended (d : Option String) :
    (validDate d = true ↔ d = none ∨ d = some "" ∨
      ∃ y1 y2 y3 m0 m1 a0 a1 : Char,
        d = some (String.mk ['2', y1, y2, y3, '-', m0, m1, '-', a0, a1]) ∧
        (y1.isDigit ∧ y2.isDigit ∧ y3.isDigit ∧ m0.isDigit ∧ m1.isDigit ∧
          a0.isDigit ∧ a1.isDigit)) ∧
    (validTime d = true ↔ d = none ∨ d = some "" ∨
      ∃ h0 h1 n0 n1 : Char,
        d = some (String.mk [h0, h1, ':', n0, n1]) ∧
        (h0.isDigit ∧ h1.isDigit ∧ n0.isDigit ∧ n1.isDigit)) := by
  cases d with
  | none => simp [validDate, validTime]
  | some s =>
    constructor
    · rw [show validDate (some s) = (s == "" || dateShape s) from rfl]
      simp only [Bool.or_eq_true, beq_iff_eq, dateShape_characterization,
        Option.some.injEq]
      constructor
      · rintro (rfl | h)
        · exact Or.inr (Or.inl rfl)
        · obtain ⟨y1, y2, y3, m0, m1, a0, a1, rfl, hs⟩ := h
          exact Or.inr (Or.inr ⟨y1, y2, y3, m0, m1, a0, a1, rfl, hs⟩)
      · rintro (h | rfl | ⟨y1, y2, y3, m0, m1, a0, a1, rfl, hs⟩)
        · exact absurd h (by simp)
        · exact Or.inl rfl
        · exact Or.inr ⟨y1, y2, y3, m0, m1, a0, a1, rfl, hs⟩
    · rw [show validTime (some s) = (s == "" || timeShape s) from rfl]
      simp only [Bool.or_eq_true, beq_iff_eq, timeShape_characterization,
        Option.some.injEq]
      constructor
      · rintro (rfl | h)
        · exact Or.inr (Or.inl rfl)
        · obtain ⟨h0, h1, n0, n1, rfl, hs⟩ := h
          exact Or.inr (Or.inr ⟨h0, h1, n0, n1, rfl, hs⟩)
      · rintro (h | rfl | ⟨h0, h1, n0, n1, rfl, hs⟩)
        · exact absurd h (by simp)
        · exact Or.inl rfl
        · exact Or.inr ⟨h0, h1, n0, n1, rfl, hs⟩

/-- C8 (witness): the characterization evaluated at the concrete accepted
date `2024-05-01`. -/
theorem date_time_validation_amended_witness :
    validDate (some "2024-05-01") = true :=
  (date_time_validation_amended (some "2024-05-01")).1.mpr
    (Or.inr (Or.inr ⟨'0', '2', '4', '0', '5', '0', '1', by decide, by decide⟩))

/-- The rebuild fold appends one summary per scanned document, in order. -/
theorem rebuild_foldl_events (docs : List FullEvent) (acc : List EventIndexEntry) (n : Int) :
    (docs.foldl rebuildStep { events := acc, nextId := n }).events =
      acc ++ docs.map forIndex := by
  induction docs generalizing acc n with
  | nil => simp
  | cons d rest ih => simp [rebuildStep, ih]

/-- The rebuild fold computes the running maximum of the document ids. -/
theorem rebuild_foldl_nextId (docs : List FullEvent) (acc : List EventIndexEntry) (n : Int) :
    (docs.foldl rebuildStep { events := acc, nextId := n }).nextId =
      docs.foldl (fun m js => max m js.id) n := by
  induction docs generalizing acc n with
  | nil => rfl
  | cons d rest ih => simp [rebuildStep, ih]

/-- A left fold of `max` dominates its seed and every element. -/
theorem foldl_max_bound (docs : List FullEvent) (n : Int) :
    n ≤ docs.foldl (fun m js => max m js.id) n ∧
    ∀ js ∈ docs, js.id ≤ docs.foldl (fun m js => max m js.id) n := by
  induction docs generalizing n with
  | nil => simp
  | cons d rest ih =>
    refine ⟨le_trans (le_max_left n d.id) (ih (max n d.id)).1, ?_⟩
    intro js hjs
    rcases List.mem_cons.mp hjs with rfl | h
    · exact le_trans (le_max_right n js.id) (ih (max n js.id)).1
    · exact (ih (max n d.id)).2 js h

/-- C9 (counterexample): rebuilding from an empty document store sets
`nextId` to 1, not to the 0 the claim states. -/
theorem rebuild_empty_nextId_cex :
    (loadOrCreateIndex none []).nextId = 1 ∧ (loadOrCreateIndex none []).nextId ≠ 0 ∧
    (loadOrCreateIndex none []).events = [] := by
  decide

/-- C9 (amended): with no persisted snapshot the index is rebuilt with one
summary per stored document, in scan order, and `nextId` is set to one past
the maximum observed id (a document id reading as 0 when falsy) — hence
strictly above every document id — which is 1, not 0, when there are no
documents. -/
theorem rebuild_index_amended (docs : List FullEvent) :
    (loadOrCreateIndex none docs).events = docs.map forIndex ∧
    (loadOrCreateIndex none docs).nextId =
      docs.foldl (fun m js => max m js.id) 0 + 1 ∧
    (∀ js ∈ docs, js.id < (loadOrCreateIndex none docs).nextId) ∧
    (docs = [] → (loadOrCreateIndex none docs).nextId = 1) := by
  refine ⟨?_, ?_, ?_, ?_⟩
  · simpa [loadOrCreateIndex, rebuildIndex] using rebuild_foldl_events docs [] 0
  · simp [loadOrCreateIndex, rebuildIndex, rebuild_foldl_nextId]
  · intro js hjs
    have h2 := (foldl_max_bound docs 0).2 js hjs
    simp only [loadOrCreateIndex, rebuildIndex, rebuild_foldl_nextId]
    omega
  · rintro rfl
    rfl

/-- C9 (witness): rebuilding from the single document of id 7 puts
`nextId` above 7 (at 8). -/
theorem rebuild_index_amended_witness :
    docA.id < (loadOrCreateIndex none [docA]).nextId ∧
    (loadOrCreateIndex none [docA]).nextId = 8 :=
  ⟨(rebuild_index_amended [docA]).2.2.1 docA (by simp), by decide⟩

/-- `getCenterAsync` can touch only the directory, never the index. -/
theorem getCenterAsync_index (geo : String → String) (st : SysState) (cid : String)
    (st1 : SysState) (c : Option Center)
    (h : getCenterAsync geo st cid = .ok (st1, c)) : st1.index = st.index := by
  unfold getCenterAsync at h
  repeat' split at h
  all_goals try simp_all
  all_goals obtain ⟨rfl, -⟩ := h
  all_goals rfl

/-- `getCenterOfField` can touch only the directory, never the index. -/
theorem getCenterOfField_index (geo : String → String) (st : SysState) (c : Option String)
    (st1 : SysState) (copt : Option Center)
    (h : getCenterOfField geo st c = .ok (st1, copt)) : st1.index = st.index := by
  unfold getCenterOfField at h
  split at h
  · simp_all
  · exact getCenterAsync_index _ _ _ _ _ h

/-- The document fetch can touch only the event cache, never the index. -/
theorem fetchEventDoc_index (st : SysState) (id : Int) (st1 : SysState) (r : FullEvent)
    (h : fetchEventDoc st id = .ok (st1, r)) : st1.index = st.index := by
  unfold fetchEventDoc at h
  repeat' split at h
  all_goals try simp_all
  all_goals obtain ⟨rfl, -⟩ := h
  all_goals rfl

/-- `readEventAsync` can touch only the caches, never the index. -/
theorem readEventAsync_index (geo : String → String) (t : Tools) (st : SysState) (id : Int)
    (st2 : SysState) (r : Option FullEvent)
    (h : readEventAsync geo t st id = .ok (st2, r)) : st2.index = st.index := by
  unfold readEventAsync at h
  split at h
  · simp_all
  next =>
    split at h
    next => simp_all
    next st1 doc heq =>
      split at h
      next => simp_all
      next st2x copt heq2 =>
        have h1 := fetchEventDoc_index _ _ _ _ heq
        have h2 := getCenterOfField_index _ _ _ _ _ heq2
        split at h
        · split at h
          next => simp_all
          next c heq3 =>
            simp only [Except.ok.injEq, Prod.mk.injEq] at h
            obtain ⟨rfl, -⟩ := h
            rw [h2, h1]
        · simp only [Except.ok.injEq, Prod.mk.injEq] at h
          obtain ⟨rfl, -⟩ := h
          rw [h2, h1]

/-- `saveEventAsync` never changes `nextId`. -/
theorem saveEventAsync_nextId (st : SysState) (e : FullEvent) :
    (saveEventAsync st e).index.nextId = st.index.nextId := rfl

/-- The target-record dispatch never changes the index, and a fresh target
is the skeleton whose id is the passed `nextId`. -/
theorem resolveCurr_spec (geo : String → String) (t : Tools) (st1 : SysState) (fid : Int)
    (delta : EventDelta) (st2 : SysState) (out : Option (FullEvent × Bool))
    (h : resolveCurr geo t st1 fid delta = .ok (st2, out)) :
    st2.index = st1.index ∧ ∀ curr, out = some (curr, true) → curr = freshEvent fid := by
  unfold resolveCurr at h
  split at h
  next i =>
    split at h
    · constructor
      · simp_all
      · intro curr hc
        simp only [Except.ok.injEq, Prod.mk.injEq] at h
        obtain ⟨-, rfl⟩ := h
        simp only [Option.some.injEq, Prod.mk.injEq] at hc
        exact hc.1.symm
    · split at h
      next => simp_all
      next st2x heq =>
        have := readEventAsync_index _ _ _ _ _ _ heq
        simp only [Except.ok.injEq, Prod.mk.injEq] at h
        obtain ⟨rfl, rfl⟩ := h
        exact ⟨this, by simp⟩
      next st2x curr heq =>
        have := readEventAsync_index _ _ _ _ _ _ heq
        simp only [Except.ok.injEq, Prod.mk.injEq] at h
        obtain ⟨rfl, rfl⟩ := h
        exact ⟨this, by simp⟩
  next =>
    constructor
    · simp_all
    · intro curr hc
      simp only [Except.ok.injEq, Prod.mk.injEq] at h
      obtain ⟨-, rfl⟩ := h
      simp only [Option.some.injEq, Prod.mk.injEq] at hc
      exact hc.1.symm

/-- `applyChanges` never changes the record's id (the id is not a
whitelisted field). -/
theorem applyChanges_id (c : FullEvent) (d : EventDelta) : (applyChanges c d).1.id = c.id := by
  unfold applyChanges copyEventFields
  split_ifs <;> rfl

/-- The outcome of `finishPost`: an assigned id is the resolved record's
id together with a `nextId` bump of one; no assignment leaves `nextId`
alone; a validation failure assigns nothing, changes nothing. -/
theorem finishPost_spec (st2 : SysState) (center : Center) (currElt : FullEvent)
    (isFresh : Bool) (delta : EventDelta) :
    (∀ i, (finishPost st2 center currElt isFresh delta).2.1 = some i →
      (isFresh = true ∧ i = currElt.id) ∧
      (finishPost st2 center currElt isFresh delta).1.index.nextId = st2.index.nextId + 1) ∧
    ((finishPost st2 center currElt isFresh delta).2.1 = none →
      (finishPost st2 center currElt isFresh delta).1.index.nextId = st2.index.nextId) ∧
    ((finishPost st2 center currElt isFresh delta).2.2 ≠ "" →
      (finishPost st2 center currElt isFresh delta).2.1 = none ∧
      (finishPost st2 center currElt isFresh delta).1.index.nextId = st2.index.nextId) := by
  unfold finishPost
  by_cases hv : (applyChanges currElt delta).2 ≠ ""
  · simp [hv]
  · cases isFresh <;>
      simp [hv, saveEventAsync_nextId, applyChanges_id]

/-- Within one POST request: an assigned id equals the pre-call `nextId`
and moves `nextId` up by exactly one; no assignment (an update or any
failure) leaves `nextId` unchanged; every non-empty outcome string leaves
`nextId` unchanged and assigns no id. -/
theorem postEvent_nextId (geo : String → String) (t : Tools) (auth : Bool) (st : SysState)
    (delta : EventDelta) (st1 : SysState) (a : Option Int) (err : String)
    (h : postEvent geo t auth st delta = .ok (st1, a, err)) :
    (∀ i, a = some i → i = st.index.nextId ∧ st1.index.nextId = st.index.nextId + 1) ∧
    (a = none → st1.index.nextId = st.index.nextId) ∧
    (err ≠ "" → a = none ∧ st1.index.nextId = st.index.nextId) := by
  unfold postEvent at h
  split at h
  next =>
    simp only [Except.ok.injEq, Prod.mk.injEq] at h
    obtain ⟨rfl, rfl, rfl⟩ := h
    exact ⟨by simp, fun _ => rfl, fun _ => ⟨rfl, rfl⟩⟩
  next cid =>
    split at h
    next => exact absurd h (by simp)
    next stc heqC =>
      have hidx : stc.index = st.index := getCenterAsync_index _ _ _ _ _ heqC
      simp only [Except.ok.injEq, Prod.mk.injEq] at h
      obtain ⟨rfl, rfl, rfl⟩ := h
      exact ⟨by simp, fun _ => by rw [hidx], fun _ => ⟨rfl, by rw [hidx]⟩⟩
    next stc center heqC =>
      have hidx : stc.index = st.index := getCenterAsync_index _ _ _ _ _ heqC
      split at h
      · simp only [Except.ok.injEq, Prod.mk.injEq] at h
        obtain ⟨rfl, rfl, rfl⟩ := h
        exact ⟨by simp, fun _ => by rw [hidx], fun _ => ⟨rfl, by rw [hidx]⟩⟩
      · split at h
        next => exact absurd h (by simp)
        next st2 heqR =>
          have hidx2 : st2.index = stc.index := (resolveCurr_spec _ _ _ _ _ _ _ heqR).1
          simp only [Except.ok.injEq, Prod.mk.injEq] at h
          obtain ⟨rfl, rfl, rfl⟩ := h
          exact ⟨by simp, fun _ => by rw [hidx2, hidx], fun _ => ⟨rfl, by rw [hidx2, hidx]⟩⟩
        next st2 currElt isFresh heqR =>
          obtain ⟨hidx2, hfresh⟩ := resolveCurr_spec _ _ _ _ _ _ _ heqR
          simp only [Except.ok.injEq] at h
          have hst1 : (finishPost st2 center currElt isFresh delta).1 = st1 :=
            congrArg Prod.fst h
          have ha : (finishPost st2 center currElt isFresh delta).2.1 = a :=
            congrArg (fun p => p.2.1) h
          have herr : (finishPost st2 center currElt isFresh delta).2.2 = err :=
            congrArg (fun p => p.2.2) h
          obtain ⟨hfs, hfn, hfe⟩ := finishPost_spec st2 center currElt isFresh delta
          refine ⟨?_, ?_, ?_⟩
          · intro i hi
            obtain ⟨hi1, hi2⟩ := hfs i (by rw [ha, hi])
            constructor
            · rcases hi1 with ⟨hcid, rfl⟩
              subst hcid
              rw [hfresh currElt rfl]
              show stc.index.nextId = st.index.nextId
              rw [hidx]
            · rw [← hst1, hi2, hidx2, hidx]
          · intro hnone
            rw [← hst1, hfn (by rw [ha, hnone]), hidx2, hidx]
          · intro hne
            obtain ⟨h1, h2⟩ := hfe (by rw [herr]; exact hne)
            exact ⟨by rw [← ha, h1], by rw [← hst1, h2, hidx2, hidx]⟩

/-- Along any request sequence: the final `nextId` dominates the starting
one, every assigned id is at least the starting `nextId`, and the assigned
ids are strictly increasing. -/
theorem runEvents_spec (geo : String → String) (t : Tools) :
    ∀ (ops : List (Bool × EventDelta)) (st : SysState),
      st.index.nextId ≤ (runEvents geo t st ops).1.index.nextId ∧
      (∀ i ∈ (runEvents geo t st ops).2, st.index.nextId ≤ i) ∧
      (runEvents geo t st ops).2.Pairwise (· < ·) := by
  intro ops
  induction ops with
  | nil => intro st; simp [runEvents]
  | cons op rest ih =>
    intro st
    obtain ⟨auth, d⟩ := op
    cases hp : postEvent geo t auth st d with
    | error e =>
      simp only [runEvents, hp]
      exact ih st
    | ok res =>
      obtain ⟨st1, a, err⟩ := res
      obtain ⟨hsome, hnone, -⟩ := postEvent_nextId _ _ _ _ _ _ _ _ hp
      obtain ⟨ihm, ihb, ihp⟩ := ih st1
      simp only [runEvents, hp]
      cases a with
      | none =>
        have hn : st1.index.nextId = st.index.nextId := hnone rfl
        refine ⟨by rw [← hn]; exact ihm, ?_, by simpa using ihp⟩
        intro i hi
        simp only [Option.toList_none, List.nil_append] at hi
        have := ihb i hi
        omega
      | some j =>
        obtain ⟨hjeq, hinc⟩ := hsome j rfl
        refine ⟨by omega, ?_, ?_⟩
        · intro i hi
          simp only [Option.toList_some, List.singleton_append, List.mem_cons] at hi
          rcases hi with rfl | hi
          · omega
          · have := ihb i hi
            omega
        · simp only [Option.toList_some, List.singleton_append, List.pairwise_cons]
          refine ⟨?_, ihp⟩
          intro i hi
          have := ihb i hi
          omega

/-- C3: across any sequence of event create/update requests, `nextId`
never decreases; a successful creation assigns the current `nextId` and
increments it by exactly one; a request whose outcome string is non-empty
(a validation failure or any other rejection) assigns no id and leaves
`nextId` unchanged; and the ids assigned across the sequence are pairwise
distinct. -/
theorem nextId_monotone_distinct (geo : String → String) (t : Tools) (st : SysState)
    (ops : List (Bool × EventDelta)) :
    (∀ auth d st1 a err, postEvent geo t auth st d = .ok (st1, a, err) →
      st.index.nextId ≤ st1.index.nextId ∧
      (∀ i, a = some i → i = st.index.nextId ∧ st1.index.nextId = st.index.nextId + 1) ∧
      (err ≠ "" → a = none ∧ st1.index.nextId = st.index.nextId)) ∧
    st.index.nextId ≤ (runEvents geo t st ops).1.index.nextId ∧
    (runEvents geo t st ops).2.Pairwise (· ≠ ·) := by
  refine ⟨?_, (runEvents_spec geo t ops st).1, ?_⟩
  · intro auth d st1 a err h
    obtain ⟨hs, hn, he⟩ := postEvent_nextId _ _ _ _ _ _ _ _ h
    refine ⟨?_, hs, he⟩
    cases a with
    | none => rw [hn rfl]
    | some i =>
      have := (hs i rfl).2
      omega
  · exact ((runEvents_spec geo t ops st).2.2).imp fun h => Int.ne_of_lt h

/-- C3 (witness): two concrete back-to-back creations are assigned the
distinct ids 1 and 2 while `nextId` does not decrease. -/
theorem nextId_monotone_distinct_witness :
    (runEvents g0 t0 st2c opsC3).2.Pairwise (· ≠ ·) ∧
    st2c.index.nextId ≤ (runEvents g0 t0 st2c opsC3).1.index.nextId ∧
    (runEvents g0 t0 st2c opsC3).2 = [1, 2] :=
  ⟨(nextId_monotone_distinct g0 t0 st2c opsC3).2.2,
   (nextId_monotone_distinct g0 t0 st2c opsC3).2.1, by rfl⟩

/-- `copyEventFields` never changes the id. -/
theorem copyEventFields_id (c : FullEvent) (d : EventDelta) :
    (copyEventFields c d).id = c.id := rfl

/-- When `applyChanges` reports success it performed exactly the
whitelisted field copy. -/
theorem applyChanges_of_ok (c : FullEvent) (d : EventDelta)
    (h : (applyChanges c d).2 = "") :
    applyChanges c d = (copyEventFields c d, "") := by
  unfold applyChanges at h ⊢
  split_ifs at h ⊢ <;> simp_all

/-- Assigning a key in the JS-object model makes it the value `lookup`
finds. -/
theorem lookup_updA_self {κ α : Type} [BEq κ] [LawfulBEq κ]
    (l : List (κ × α)) (k : κ) (v : α) :
    List.lookup k (updA l k v) = some v := by
  induction l with
  | nil => simp [updA, List.lookup]
  | cons p rest ih =>
    obtain ⟨k0, v0⟩ := p
    unfold updA
    by_cases hk : (k0 == k) = true
    · simp [hk, List.lookup]
    · have hne : k0 ≠ k := by simpa using hk
      have hk2 : (k == k0) = false := beq_eq_false_iff_ne.mpr fun he => hne he.symm
      simp [hk, List.lookup, hk2, ih]

/-- The upserted entry is found by an id scan of the index. -/
theorem upsertEntry_any (l : List EventIndexEntry) (ent : EventIndexEntry) :
    (upsertEntry l ent).any (fun e => e.id == ent.id) = true := by
  induction l with
  | nil => simp [upsertEntry]
  | cons e rest ih =>
    unfold upsertEntry
    by_cases h : (e.id == ent.id) = true
    · simp [h]
    · simp [h, ih]

/-- `collapseAddress` touches only the address. -/
theorem collapseAddress_fields (e : FullEvent) (center : Center) :
    (collapseAddress e center).id = e.id ∧ (collapseAddress e center).center = e.center ∧
    (collapseAddress e center).name = e.name ∧
    (collapseAddress e center).address =
      (if e.address == some center.address then none else e.address) := by
  unfold collapseAddress
  split <;> simp_all

/-- `collapseName` touches only the name. -/
theorem collapseName_fields (e : FullEvent) (center : Center) :
    (collapseName e center).id = e.id ∧ (collapseName e center).center = e.center ∧
    (collapseName e center).address = e.address ∧
    (collapseName e center).name =
      (if e.name == some center.name then none else e.name) := by
  unfold collapseName
  split <;> simp_all

/-- `collapseEndDate` touches only the end date. -/
theorem collapseEndDate_fields (e : FullEvent) :
    (collapseEndDate e).id = e.id ∧ (collapseEndDate e).center = e.center ∧
    (collapseEndDate e).address = e.address ∧ (collapseEndDate e).name = e.name := by
  unfold collapseEndDate
  split <;> simp_all

/-- The collapsed record keeps its id and center; its address and name are
deleted exactly when they equal the center's. -/
theorem collapseEvent_fields (e : FullEvent) (center : Center) :
    (collapseEvent e center).id = e.id ∧ (collapseEvent e center).center = e.center ∧
    (collapseEvent e center).address =
      (if e.address == some center.address then none else e.address) ∧
    (collapseEvent e center).name =
      (if e.name == some center.name then none else e.name) := by
  unfold collapseEvent
  obtain ⟨a1, a2, a3, a4⟩ := collapseAddress_fields e center
  obtain ⟨b1, b2, b3, b4⟩ := collapseName_fields (collapseAddress e center) center
  obtain ⟨c1, c2, c3, c4⟩ := collapseEndDate_fields
    (collapseName (collapseAddress e center) center)
  refine ⟨by rw [c1, b1, a1], by rw [c2, b2, a2], by rw [c3, b3, a4], ?_⟩
  rw [c4, b4, a3]

/-- On a successful validation, `finishPost` saves the collapsed copy and
reports the target's id for a creation. -/
theorem finishPost_ok (st2 : SysState) (center : Center) (currElt : FullEvent)
    (isFresh : Bool) (delta : EventDelta)
    (hok : (applyChanges currElt delta).2 = "") :
    finishPost st2 center currElt isFresh delta =
      (saveEventAsync
        (if isFresh
          then { st2 with index := { st2.index with nextId := st2.index.nextId + 1 } }
          else st2)
        (collapseEvent (copyEventFields currElt delta) center),
       if isFresh then some currElt.id else none, "") := by
  unfold finishPost
  rw [applyChanges_of_ok currElt delta hok]
  simp [copyEventFields_id]

/-- Reading an event straight after saving it, when its stored `address`
is truthy: the cached record comes back augmented, with no fill-in. -/
theorem readEventAsync_after_save_truthy (geo : String → String) (t : Tools)
    (stx : SysState) (e : FullEvent) (cid : String) (center : Center)
    (hcen : e.center = some cid)
    (hl : List.lookup cid stx.centers = some center)
    (htr : jsTruthy e.address = true) :
    readEventAsync geo t (saveEventAsync stx e) e.id =
      .ok (saveEventAsync stx e,
        some (augmentFull t (saveEventAsync stx e).centers e)) := by
  have hany : ((saveEventAsync stx e).index.events.any fun x => x.id == e.id) = true :=
    upsertEntry_any stx.index.events (forIndex e)
  have hfd : fetchEventDoc (saveEventAsync stx e) e.id = .ok (saveEventAsync stx e, e) := by
    unfold fetchEventDoc
    rw [show List.lookup e.id (saveEventAsync stx e).eventsCache = some e from
      lookup_updA_self stx.eventsCache e.id e]
  have hga : getCenterAsync geo (saveEventAsync stx e) cid =
      .ok (saveEventAsync stx e, some center) := by
    unfold getCenterAsync
    rw [show List.lookup cid (saveEventAsync stx e).centers = some center from hl]
  have hgf : getCenterOfField geo (saveEventAsync stx e) e.center =
      .ok (saveEventAsync stx e, some center) := by
    rw [hcen]
    exact hga
  unfold readEventAsync
  simp only [hany, Bool.not_true, Bool.false_eq_true, if_false, hfd, hgf, htr,
    Bool.not_false, if_true]

/-- Reading an event straight after saving it, when its stored `address`
is absent or empty: both `address` and `name` come back from the owning
center. -/
theorem readEventAsync_after_save_absent (geo : String → String) (t : Tools)
    (stx : SysState) (e : FullEvent) (cid : String) (center : Center)
    (hcen : e.center = some cid)
    (hl : List.lookup cid stx.centers = some center)
    (htr : jsTruthy e.address = false) :
    readEventAsync geo t (saveEventAsync stx e) e.id =
      .ok (saveEventAsync stx e,
        some (augmentFull t (saveEventAsync stx e).centers
          { e with address := some center.address, name := some center.name })) := by
  have hany : ((saveEventAsync stx e).index.events.any fun x => x.id == e.id) = true :=
    upsertEntry_any stx.index.events (forIndex e)
  have hfd : fetchEventDoc (saveEventAsync stx e) e.id = .ok (saveEventAsync stx e, e) := by
    unfold fetchEventDoc
    rw [show List.lookup e.id (saveEventAsync stx e).eventsCache = some e from
      lookup_updA_self stx.eventsCache e.id e]
  have hga : getCenterAsync geo (saveEventAsync stx e) cid =
      .ok (saveEventAsync stx e, some center) := by
    unfold getCenterAsync
    rw [show List.lookup cid (saveEventAsync stx e).centers = some center from hl]
  have hgf : getCenterOfField geo (saveEventAsync stx e) e.center =
      .ok (saveEventAsync stx e, some center) := by
    rw [hcen]
    exact hga
  unfold readEventAsync
  simp only [hany, Bool.not_true, Bool.false_eq_true, if_false, hfd, hgf, htr,
    Bool.not_false, if_true]

/-- C2 (amended): the read-time fill-in is keyed on `address` alone: when
the stored record omits `address`, both `address` and `name` are taken
from the owning center; when `address` is stored, an absent `name` is not
restored.  Consequently a freshly created event reads back with the
delta's `address` and `name` exactly when the two coincide with the
center's values together: both equal (both collapsed, both restored) or
both different (nothing collapsed, provided the address is truthy). -/
theorem event_roundtrip_amended (geo : String → String) (t : Tools) (st : SysState)
    (delta : EventDelta) (cid : String) (center : Center)
    (hid : delta.id = none) (hcid : delta.center = some cid)
    (hc : List.lookup cid st.centers = some center)
    (hok : (applyChanges (freshEvent st.index.nextId) delta).2 = "")
    (hmatch : (delta.address = some center.address ∧ delta.name = some center.name) ∨
      (delta.address ≠ some center.address ∧ delta.name ≠ some center.name ∧
        jsTruthy delta.address = true)) :
    ∃ st4 st5 r,
      postEvent geo t true st delta = .ok (st4, some st.index.nextId, "") ∧
      readEventAsync geo t st4 st.index.nextId = .ok (st5, some r) ∧
      r.address = delta.address ∧ r.name = delta.name := by
  have hgc : getCenterAsync geo st cid = .ok (st, some center) := by
    unfold getCenterAsync
    rw [hc]
  have hres : resolveCurr geo t st st.index.nextId delta =
      .ok (st, some (freshEvent st.index.nextId, true)) := by
    unfold resolveCurr
    rw [hid]
  have hpost : postEvent geo t true st delta =
      .ok (finishPost st center (freshEvent st.index.nextId) true delta) := by
    unfold postEvent
    simp only [hcid, hgc, hres, Bool.not_true, Bool.false_eq_true, if_false]
  have hpost2 : postEvent geo t true st delta =
      .ok (saveEventAsync
            { st with index := { st.index with nextId := st.index.nextId + 1 } }
            (collapseEvent (copyEventFields (freshEvent st.index.nextId) delta) center),
          some st.index.nextId, "") := by
    rw [hpost, finishPost_ok st center (freshEvent st.index.nextId) true delta hok]
    rfl
  obtain ⟨hce_id, hce_center, hce_addr, hce_name⟩ :=
    collapseEvent_fields (copyEventFields (freshEvent st.index.nextId) delta) center
  have hcf_a : (copyEventFields (freshEvent st.index.nextId) delta).address =
      delta.address := by
    simp [copyEventFields, freshEvent, Option.or_none]
  have hcf_n : (copyEventFields (freshEvent st.index.nextId) delta).name = delta.name := by
    simp [copyEventFields, freshEvent, Option.or_none]
  have he3_center :
      (collapseEvent (copyEventFields (freshEvent st.index.nextId) delta) center).center =
        some cid := by
    rw [hce_center]
    simp [copyEventFields, freshEvent, Option.or_none, hcid]
  have he3_id :
      (collapseEvent (copyEventFields (freshEvent st.index.nextId) delta) center).id =
        st.index.nextId := by
    rw [hce_id, copyEventFields_id]
    rfl
  rcases hmatch with ⟨ha, hn⟩ | ⟨ha, hn, htr⟩
  · have he3_addr :
        (collapseEvent (copyEventFields (freshEvent st.index.nextId) delta) center).address =
          none := by
      rw [hce_addr, hcf_a, ha]
      simp
    have htr0 : jsTruthy
        (collapseEvent (copyEventFields (freshEvent st.index.nextId) delta) center).address =
          false := by
      rw [he3_addr]
      rfl
    have hread := readEventAsync_after_save_absent geo t
      { st with index := { st.index with nextId := st.index.nextId + 1 } }
      (collapseEvent (copyEventFields (freshEvent st.index.nextId) delta) center)
      cid center he3_center hc htr0
    rw [he3_id] at hread
    exact ⟨_, _, _, hpost2, hread, ha.symm, hn.symm⟩
  · have hba : (delta.address == some center.address) = false :=
      beq_eq_false_iff_ne.mpr ha
    have hbn : (delta.name == some center.name) = false :=
      beq_eq_false_iff_ne.mpr hn
    have he3_addr :
        (collapseEvent (copyEventFields (freshEvent st.index.nextId) delta) center).address =
          delta.address := by
      rw [hce_addr, hcf_a, hba]
      simp
    have he3_name :
        (collapseEvent (copyEventFields (freshEvent st.index.nextId) delta) center).name =
          delta.name := by
      rw [hce_name, hcf_n, hbn]
      simp
    have htr0 : jsTruthy
        (collapseEvent (copyEventFields (freshEvent st.index.nextId) delta) center).address =
          true := by
      rw [he3_addr]
      exact htr
    have hread := readEventAsync_after_save_truthy geo t
      { st with index := { st.index with nextId := st.index.nextId + 1 } }
      (collapseEvent (copyEventFields (freshEvent st.index.nextId) delta) center)
      cid center he3_center hc htr0
    rw [he3_id] at hread
    exact ⟨_, _, _, hpost2, hread, he3_addr, he3_name⟩

/-- C2 (counterexample): creating the event of `delta2` against center
`x` (its `name` equals the center's, its `address` differs) persists a
record whose `name` key is absent, yet reading the event back by id leaves
`name` absent instead of restoring it from the center — the fill-in does
not run because the stored `address` is present — so the read-back record
does not equal the saved delta on the whitelisted `name` field. -/
theorem readEvent_name_not_restored_cex :
    ((postEvent g0 t0 true st2c delta2).map fun out =>
      (List.lookup 1 out.1.storeEvents).map (·.name)) = .ok (some none) ∧
    (((postEvent g0 t0 true st2c delta2).bind fun out =>
      readEventAsync g0 t0 out.1 1).map fun p => p.2.map (·.name)) = .ok (some none) ∧
    delta2.name = some "N" ∧ center0.name = "N" ∧
    delta2.address = some "B" ∧ center0.address = "A" :=
  ⟨rfl, rfl, rfl, rfl, rfl, rfl⟩

/-- C2 (witness): the amended round trip at the concrete center `x` and
the delta `deltaW2`, whose address and name both equal the center's. -/
theorem event_roundtrip_amended_witness :
    ∃ st4 st5 r,
      postEvent g0 t0 true st2c deltaW2 = .ok (st4, some st2c.index.nextId, "") ∧
      readEventAsync g0 t0 st4 st2c.index.nextId = .ok (st5, some r) ∧
      r.address = deltaW2.address ∧ r.name = deltaW2.name :=
  event_roundtrip_amended g0 t0 st2c deltaW2 "x" center0 rfl rfl rfl rfl
    (Or.inl ⟨rfl, rfl⟩)

/-- Insertion grows the length by one. -/
theorem length_insertSorted (e : EventIndexEntry) (l : List EventIndexEntry) :
    (insertSorted e l).length = l.length + 1 := by
  induction l with
  | nil => rfl
  | cons x rest ih =>
    unfold insertSorted
    split
    · simp
    · simp [ih]

/-- Sorting preserves the length. -/
theorem length_sortEvents (l : List EventIndexEntry) :
    (sortEvents l).length = l.length := by
  induction l with
  | nil => rfl
  | cons x rest ih =>
    show (insertSorted x (sortEvents rest)).length = rest.length + 1
    rw [length_insertSorted, ih]

/-- The truncation step never returns more than the clamped count, which
is `min (effCount q) 100`. -/
theorem truncateCount_length (q : Query) (l : List EventIndexEntry) :
    (truncateCount q l).length ≤ min (effCount q) 100 := by
  unfold truncateCount clampCount
  split_ifs with h1 h2 h3 <;> simp_all [List.length_take] <;> omega

/-- C5 (counterexample): a `count` parameter that parses to 0 is replaced
by the default 100 (JS `0 || 100`), so this query over a one-event index
returns one event even though the claim's bound `min(count, 100)` is 0. -/
theorem query_count_zero_cex :
    ((queryEventsAsync g0 t0 st5 q5 "2024-01-01").map fun p => p.2.events.length) =
      .ok 1 ∧
    q5.count = some 0 ∧ ¬(1 ≤ min 0 100) :=
  ⟨rfl, rfl, by decide⟩

/-- C5 (amended): for every query the number of returned events is at most
`min(count, 100)`, where `count` is the absolute value of the parsed
parameter when it is a nonzero integer and 100 when it is absent,
unparsable or zero; and `totalCount` is the size of the list surviving the
date/center/country filters, before skip and truncation. -/
theorem query_pagination_amended (geo : String → String) (t : Tools) (st : SysState)
    (q : Query) (today : String) (mid : QueryMid)
    (h : queryEventsCore geo t st q today = .ok mid) :
    mid.result.events.length ≤ min (effCount q) 100 ∧
    mid.result.totalCount = mid.filtered.length := by
  unfold queryEventsCore at h
  split at h
  next => exact Except.noConfusion h
  next st1 heq =>
    simp only [Except.ok.injEq] at h
    subst h
    constructor
    · show ((truncateCount q (applySkip q _)).map (augmentEvent t st1.centers)).length ≤ _
      rw [List.length_map]
      exact truncateCount_length q _
    · show (sortEvents _).length = _
      rw [length_sortEvents]
      rfl

/-- C5 (witness): the amended bound at a concrete query over the empty
index (whose core evaluates to the trivial intermediate record). -/
theorem query_pagination_amended_witness :
    (QueryMid.mk stE [] [] ⟨0, []⟩).result.events.length ≤ min (effCount q5) 100 ∧
    (QueryMid.mk stE [] [] ⟨0, []⟩).result.totalCount =
      (QueryMid.mk stE [] [] ⟨0, []⟩).filtered.length :=
  query_pagination_amended g0 t0 stE q5 "2024-01-01" (QueryMid.mk stE [] [] ⟨0, []⟩) rfl

/-- C6 (counterexample): with one result per page (`count = 1`) over two
events — a US-center event on May 1 and a DE-center event on May 2 — the
query with `country = "DE"` returns the event of id 2 while the same query
with the country wildcard returns only the event of id 1: the wildcard
result is not a superset of the country-filtered result. -/
theorem country_wildcard_not_superset_cex :
    ((queryEventsAsync g0 t0 st6 q6de "2024-01-01").map fun p =>
      p.2.events.map (·.id)) = .ok [2] ∧
    ((queryEventsAsync g0 t0 st6 q6star "2024-01-01").map fun p =>
      p.2.events.map (·.id)) = .ok [1] ∧
    ¬((2 : Int) ∈ [(1 : Int)]) :=
  ⟨rfl, rfl, by decide⟩

/-- `paginate` returns its state argument unchanged. -/
theorem paginate_st (q : Query) (t : Tools) (st1 : SysState)
    (sv fl : List EventIndexEntry) : (paginate q t st1 sv fl).st = st1 := rfl

/-- `paginate` passes the surviving list through. -/
theorem paginate_surviving (q : Query) (t : Tools) (st1 : SysState)
    (sv fl : List EventIndexEntry) : (paginate q t st1 sv fl).surviving = sv := rfl

/-- `paginate` passes the filtered list through. -/
theorem paginate_filtered (q : Query) (t : Tools) (st1 : SysState)
    (sv fl : List EventIndexEntry) : (paginate q t st1 sv fl).filtered = fl := rfl

/-- C6 (amended): the country filter, applied before sorting and
pagination, removes exactly the surviving entries whose center is absent
from the directory after the population pass or whose resolved center's
country differs; before pagination the country-filtered list is a
sub-collection of the wildcard one (which equals the surviving list), but
after skip/truncation the wildcard response need not be a superset of the
country-specific response. -/
theorem country_filter_amended (geo : String → String) (t : Tools) (st : SysState)
    (q : Query) (today : String) (mid : QueryMid)
    (h : queryEventsCore geo t st q today = .ok mid) :
    (∀ e, e ∈ mid.filtered ↔ e ∈ mid.surviving ∧
      (jsOrD q.country "*" = "*" ∨
        countryPass mid.st.centers (jsOrD q.country "*") e = true)) ∧
    (∃ mid2, queryEventsCore geo t st { q with country := some "*" } today = .ok mid2 ∧
      mid2.surviving = mid.surviving ∧ mid2.st = mid.st ∧
      mid2.filtered = mid.surviving ∧
      ∀ e ∈ mid.filtered, e ∈ mid2.filtered) := by
  unfold queryEventsCore at h
  split at h
  next => exact Except.noConfusion h
  next st1 heq =>
    simp only [Except.ok.injEq] at h
    subst h
    constructor
    · intro e
      show e ∈ (if jsOrD q.country "*" = "*" then _ else _) ↔ _
      split
      next hq => simp [hq, paginate_surviving, paginate_st]
      next hq =>
        simp only [paginate_surviving, paginate_st, List.mem_filter, hq]
        simp [hq]
    · refine ⟨paginate { q with country := some "*" } t st1
        (st.index.events.filter
          (survivesFilter (jsOrD q.start today) (jsOrD q.stop "9999-99-99")
            (jsOrD q.center "*")))
        (st.index.events.filter
          (survivesFilter (jsOrD q.start today) (jsOrD q.stop "9999-99-99")
            (jsOrD q.center "*"))), ?_, rfl, rfl, rfl, ?_⟩
      · unfold queryEventsCore
        rw [show ({ q with country := some "*" } : Query).start = q.start from rfl,
            show ({ q with country := some "*" } : Query).stop = q.stop from rfl,
            show ({ q with country := some "*" } : Query).center = q.center from rfl,
            heq]
        rfl
      · intro e he
        show e ∈ st.index.events.filter _
        revert he
        show e ∈ (if jsOrD q.country "*" = "*" then _ else _) → _
        split
        · exact id
        · intro he
          exact (List.mem_filter.mp he).1

/-- C6 (witness): the amended characterization at a concrete query with
`country = "DE"` over the empty index. -/
theorem country_filter_amended_witness :
    (∀ e, e ∈ (QueryMid.mk stE [] [] ⟨0, []⟩).filtered ↔
      e ∈ (QueryMid.mk stE [] [] ⟨0, []⟩).surviving ∧
      (jsOrD q6de.country "*" = "*" ∨
        countryPass (QueryMid.mk stE [] [] ⟨0, []⟩).st.centers
          (jsOrD q6de.country "*") e = true)) ∧
    (∃ mid2, queryEventsCore g0 t0 stE { q6de with country := some "*" }
        "2024-01-01" = .ok mid2 ∧
      mid2.surviving = (QueryMid.mk stE [] [] ⟨0, []⟩).surviving ∧
      mid2.st = (QueryMid.mk stE [] [] ⟨0, []⟩).st ∧
      mid2.filtered = (QueryMid.mk stE [] [] ⟨0, []⟩).surviving ∧
      ∀ e ∈ (QueryMid.mk stE [] [] ⟨0, []⟩).filtered, e ∈ mid2.filtered) :=
  country_filter_amended g0 t0 stE q6de "2024-01-01" (QueryMid.mk stE [] [] ⟨0, []⟩) rfl
